import Mathlib

/-!
Shallow embedding of `src/functions/summarize.js` (urlhensin).

The repository ships two variants of the same URL-summarizer workflow in one
source file: a single-invocation function-style handler (`exports.handler`)
and a long-running HTTP server (`http.createServer` callback).  Strings are
modelled as `List Char`; the two outbound network calls (content fetch and
summarization call) are modelled as oracle functions supplied in an
`Upstream` record, and each entry point returns, besides its response, the
list of outbound calls it issued.
-/

/-- The JavaScript `\s` character class (as used by `replace(/\s+/g, ' ')`
and `String.prototype.trim` in the source): ASCII whitespace, NBSP, the
Unicode space separators, line/paragraph separators and the BOM. -/
def isWsChar (c : Char) : Bool :=
  c == ' ' || c == '\t' || c == '\n' || c == '\r' || c == '\x0b' || c == '\x0c' ||
  c == '\u00a0' || c == '\u1680' ||
  c == '\u2000' || c == '\u2001' || c == '\u2002' || c == '\u2003' || c == '\u2004' ||
  c == '\u2005' || c == '\u2006' || c == '\u2007' || c == '\u2008' || c == '\u2009' ||
  c == '\u200a' || c == '\u2028' || c == '\u2029' || c == '\u202f' || c == '\u205f' ||
  c == '\u3000' || c == '\ufeff'

/-- `mainContent.replace(/<[^>]*>/g, ' ')` (summarize.js line 126): each
leftmost match `<…>` — a `<`, then characters other than `>`, then the first
following `>` — is replaced by one space.  A `<` with no later `>` starts no
match, and then no later character can start one either, so the remainder is
kept verbatim, which is what the `else` branch produces character by
character. -/
def stripTagsAux : Option (List Char) → List Char → List Char
  | none, [] => []
  | none, c :: rest =>
    if c = '<' then stripTagsAux (some []) rest else c :: stripTagsAux none rest
  | some acc, [] => '<' :: acc.reverse
  | some acc, c :: rest =>
    if c = '>' then ' ' :: stripTagsAux none rest
    else stripTagsAux (some (c :: acc)) rest

/-- `mainContent.replace(/<[^>]*>/g, ' ')` (summarize.js line 126), as a
left-to-right scan: `none` is the outside-tag state; `some acc` means a `<`
was seen and `acc` holds (reversed) the non-`>` characters consumed since.
Each leftmost match `<…>` — a `<`, then characters other than `>`, then the
first following `>` — is replaced by one space; a `<` with no later `>`
starts no match and the consumed characters are restored verbatim. -/
def stripTags (l : List Char) : List Char := stripTagsAux none l

/-- `mainContent.replace(/\s+/g, ' ')` (summarize.js line 129): every maximal
run of whitespace characters becomes a single space. -/
def collapseRuns : List Char → List Char
  | [] => []
  | [c] => if isWsChar c then [' '] else [c]
  | c :: d :: rest =>
    if isWsChar c && isWsChar d then collapseRuns (d :: rest)
    else (if isWsChar c then ' ' else c) :: collapseRuns (d :: rest)

/-- `.trim()` (summarize.js line 129): remove leading and trailing
whitespace. -/
def trimWs (l : List Char) : List Char :=
  ((l.dropWhile isWsChar).reverse.dropWhile isWsChar).reverse

/-- Lines 126–129 of summarize.js: tag stripping, then whitespace collapse,
then trim. -/
def cleanText (l : List Char) : List Char :=
  trimWs (collapseRuns (stripTags l))

/-- The literal `'...'` appended on truncation (summarize.js line 134). -/
def ellipsisMark : List Char := "...".data

/-- Lines 132–135 of summarize.js: if the cleaned content exceeds 10,000
characters it is cut to its first 10,000 characters and `'...'` is
appended; otherwise it is returned unchanged. -/
def truncateContent (l : List Char) : List Char :=
  if l.length > 10000 then l.take 10000 ++ ellipsisMark else l

/-- The full content normalization of the function-style handler
(summarize.js lines 122–135). -/
def normalizeContent (l : List Char) : List Char :=
  truncateContent (cleanText l)

/-- Two characters may sit in this order in a tag-free text: not a `<`
strictly before a `>`. -/
def NoTagRel (a b : Char) : Prop := ¬(a = '<' ∧ b = '>')

/-- A text contains no substring matching `<[^>]*>`: no `<` anywhere before
a `>`. -/
def TagFree (l : List Char) : Prop := l.Pairwise NoTagRel

/-- Adjacent characters are not both whitespace. -/
def NoWsRun (l : List Char) : Prop :=
  l.Chain' (fun a b => ¬(isWsChar a ∧ isWsChar b))

/-- Every whitespace character of the text is a plain space. -/
def WsIsSpace (l : List Char) : Prop :=
  ∀ c ∈ l, isWsChar c → c = ' '

/-- The text neither starts nor ends with whitespace. -/
def TrimmedEnds (l : List Char) : Prop :=
  (∀ c ∈ l.head?, isWsChar c = false) ∧ (∀ c ∈ l.getLast?, isWsChar c = false)

/-- JSON values, used to model the `JSON.stringify`-ed response bodies.
`JSON.stringify` drops object fields whose value is `undefined`, so omitted
fields are simply absent from the field list. -/
inductive Json where
  | null : Json
  | bool (b : Bool) : Json
  | num (n : Int) : Json
  | str (s : List Char) : Json
  | arr (xs : List Json) : Json
  | obj (fields : List (List Char × Json)) : Json

/-- The `url` field of the parsed request body: absent (`undefined`) or a
string value.  (Other JavaScript value types for the field are not
modelled.) -/
inductive UrlField where
  | missing : UrlField
  | str (s : List Char) : UrlField
deriving DecidableEq

/-- The JavaScript truthiness test `!targetUrl` on the modelled `url` field:
`undefined` and the empty string are falsy. -/
def jsFalsy : UrlField → Bool
  | .missing => true
  | .str s => s.isEmpty

/-- The string value of the `url` field (empty for a missing field; only
read on the non-falsy path). -/
def urlValue : UrlField → List Char
  | .missing => []
  | .str s => s

/-- The request body as seen through `JSON.parse`: either the parse throws
(`malformed`, carrying the thrown error's message and stack) or it yields an
object whose `url` field is modelled. -/
inductive ReqBody where
  | malformed (msg stack : List Char) : ReqBody
  | parsed (urlField : UrlField) : ReqBody

/-- Outcome of `makeRequest(targetUrl)` for the content fetch, at the level
the callers consume it: `success` carries `response.data.toString()`,
`httpErr` a rejection with `error.response` (non-2xx status and body),
`netErr` a rejection with `error.request` and `error.message`. -/
inductive FetchOutcome where
  | success (text : List Char) : FetchOutcome
  | httpErr (status : Nat) (data : List Char) : FetchOutcome
  | netErr (msg : List Char) : FetchOutcome

/-- Outcome of the summarization `makeRequest` call as consumed by the
callers: `success` carries `data.candidates[0].content.parts[0].text`;
`badShape` is a 2xx response on which that extraction throws (message and
stack of the thrown error); `httpErr` and `netErr` as for the fetch. -/
inductive GemOutcome where
  | success (summary : List Char) : GemOutcome
  | badShape (msg stack : List Char) : GemOutcome
  | httpErr (status : Nat) (data : List Char) : GemOutcome
  | netErr (msg : List Char) : GemOutcome

/-- The two outbound collaborators, keyed by what the code sends them: the
fetch by the target URL, the summarization call by the prompt text it
posts. -/
structure Upstream where
  fetch : List Char → FetchOutcome
  gemini : List Char → GemOutcome

/-- One outbound network call, as recorded in an invocation's trace. -/
inductive OutCall where
  | fetchGet (targetUrl : List Char) : OutCall
  | geminiPost (prompt : List Char) : OutCall
deriving DecidableEq

/-- The prompt built around the (possibly normalized) page content
(summarize.js lines 152 and 425). -/
def promptFor (mainContent : List Char) : List Char :=
  "Summarize the following web page content in one concise sentence:\n\n".data
    ++ mainContent

/-- JavaScript `error.response.status || 500` (summarize.js line 201): the
status, except that a falsy status (0) falls back to 500. -/
def statusOr500 (st : Nat) : Nat := if st = 0 then 500 else st

/-- The CORS headers set by the function-style handler (lines 80–84). -/
def corsHeadersFn : List (List Char × List Char) :=
  [("Access-Control-Allow-Origin".data, "*".data),
   ("Access-Control-Allow-Headers".data, "Content-Type".data),
   ("Access-Control-Allow-Methods".data, "POST, OPTIONS".data)]

/-- A one-field error body `{ error: msg }`. -/
def jsonErr (msg : List Char) : Json := .obj [("error".data, .str msg)]

/-- The success body `{ url, summary }` (lines 187–190 and 443–446). -/
def successBody (targetUrl summary : List Char) : Json :=
  .obj [("url".data, .str targetUrl), ("summary".data, .str summary)]

/-- Handler body for a rejection with `error.response` (lines 203–208):
`message` and `stack` are `undefined` on such a rejection, so
`JSON.stringify` drops them. -/
def processingErrorBody (details : List Char) : Json :=
  .obj [("error".data, .str "Error processing request".data),
        ("details".data, .str details)]

/-- Handler body for a rejection with `error.request` (lines 213–219):
`stack` is `undefined` and dropped. -/
def requestErrorBody (msg : List Char) : Json :=
  .obj [("error".data, .str "Error making request".data),
        ("details".data, .str "No response received".data),
        ("message".data, .str msg)]

/-- Handler body for any other caught error (lines 224–229). -/
def unexpectedErrorBody (msg stack : List Char) : Json :=
  .obj [("error".data, .str "Unexpected error".data),
        ("message".data, .str msg),
        ("stack".data, .str stack)]

/-- The function-style invocation event: `httpMethod` and the request body
(at `JSON.parse` granularity). -/
structure LambdaEvent where
  httpMethod : List Char
  body : ReqBody

/-- The function-style handler's return value: status code, headers and the
stringified body (`none` models the empty-string body `''`). -/
structure LambdaResponse where
  statusCode : Nat
  headers : List (List Char × List Char)
  body : Option Json

/-- The summarize pipeline of `exports.handler` after validation (lines
117–231): fetch, normalize, check `GEMINI_API_KEY`, call the summarization
API, shape the response; rejections and thrown errors land in the `catch`
block's three branches. -/
def handlerPipeline (geminiApiKey : Option (List Char)) (up : Upstream)
    (targetUrl : List Char) : LambdaResponse × List OutCall :=
  match up.fetch targetUrl with
  | .httpErr st data =>
      (⟨statusOr500 st, corsHeadersFn, some (processingErrorBody data)⟩,
       [.fetchGet targetUrl])
  | .netErr msg =>
      (⟨500, corsHeadersFn, some (requestErrorBody msg)⟩, [.fetchGet targetUrl])
  | .success text =>
    match geminiApiKey with
    | none =>
        (⟨500, corsHeadersFn,
          some (jsonErr "GEMINI_API_KEY environment variable is not set".data)⟩,
         [.fetchGet targetUrl])
    | some _ =>
      match up.gemini (promptFor (normalizeContent text)) with
      | .success summary =>
          (⟨200,
            corsHeadersFn ++ [("Content-Type".data, "application/json".data)],
            some (successBody targetUrl summary)⟩,
           [.fetchGet targetUrl, .geminiPost (promptFor (normalizeContent text))])
      | .badShape msg stack =>
          (⟨500, corsHeadersFn, some (unexpectedErrorBody msg stack)⟩,
           [.fetchGet targetUrl, .geminiPost (promptFor (normalizeContent text))])
      | .httpErr st data =>
          (⟨statusOr500 st, corsHeadersFn, some (processingErrorBody data)⟩,
           [.fetchGet targetUrl, .geminiPost (promptFor (normalizeContent text))])
      | .netErr msg =>
          (⟨500, corsHeadersFn, some (requestErrorBody msg)⟩,
           [.fetchGet targetUrl, .geminiPost (promptFor (normalizeContent text))])

/-- `exports.handler` (summarize.js lines 78–233).  A body whose
`JSON.parse` throws is caught by the outer `catch`; the thrown `SyntaxError`
has neither `response` nor `request`, so it lands in the final `else`
branch (500, `Unexpected error`). -/
def exportsHandler (geminiApiKey : Option (List Char)) (up : Upstream)
    (event : LambdaEvent) : LambdaResponse × List OutCall :=
  if event.httpMethod = "OPTIONS".data then
    (⟨204, corsHeadersFn, none⟩, [])
  else if event.httpMethod ≠ "POST".data then
    (⟨405, corsHeadersFn, some (jsonErr "Method not allowed".data)⟩, [])
  else
    match event.body with
    | .malformed msg stack =>
        (⟨500, corsHeadersFn, some (unexpectedErrorBody msg stack)⟩, [])
    | .parsed urlField =>
      if jsFalsy urlField then
        (⟨400, corsHeadersFn, some (jsonErr "URL is required".data)⟩, [])
      else handlerPipeline geminiApiKey up (urlValue urlField)

/-- A request as seen by the server callback: method, `url.parse(req.url)`'s
pathname, and the accumulated body at `JSON.parse` granularity. -/
structure ServerRequest where
  method : List Char
  pathname : List Char
  body : ReqBody

/-- The server's reply: status code, whether
`setHeader('Content-Type', 'application/json')` was issued, and the
stringified body (`none` for the bare `res.end()` of the 204 reply).  The
CORS headers are set unconditionally on every reply. -/
structure ServerResponse where
  statusCode : Nat
  contentTypeJson : Bool
  body : Option Json

/-- Server body for a rejection with `error.response` (lines 457–460). -/
def srvProcessingErrorBody (details : List Char) : Json :=
  .obj [("error".data, .str "Error processing request".data),
        ("details".data, .str details)]

/-- Server body for a rejection with `error.request` (lines 462–465). -/
def srvNoResponseBody (msg : List Char) : Json :=
  .obj [("error".data, .str "No response received from server".data),
        ("details".data, .str msg)]

/-- Server body for any other caught error (lines 467–470). -/
def srvSetupErrorBody (msg : List Char) : Json :=
  .obj [("error".data, .str "Error setting up request".data),
        ("details".data, .str msg)]

/-- The informational body served for `GET /` (lines 360–365). -/
def welcomeBody : Json :=
  .obj [("message".data, .str "Welcome to the URL Summarizer API".data),
        ("endpoints".data,
         .obj [("summarize".data,
                .str "POST /summarize with \x7b\"url\": \"https://example.com\"\x7d".data)])]

/-- The `/summarize` pipeline of the server variant (lines 401–472): fetch,
pass the fetched text through unchanged (`const mainContent =
content.toString()` — no tag stripping, whitespace collapse or truncation),
call the summarization API, shape the response.  The `catch` block sets
`res.statusCode = 500` before distinguishing error shapes, so every failure
is reported as 500.  The server validates `GEMINI_API_KEY` at startup, so
the per-request flow takes it as given. -/
def serverPipeline (up : Upstream) (targetUrl : List Char) :
    ServerResponse × List OutCall :=
  match up.fetch targetUrl with
  | .httpErr _ data =>
      (⟨500, true, some (srvProcessingErrorBody data)⟩, [.fetchGet targetUrl])
  | .netErr msg =>
      (⟨500, true, some (srvNoResponseBody msg)⟩, [.fetchGet targetUrl])
  | .success text =>
    match up.gemini (promptFor text) with
    | .success summary =>
        (⟨200, true, some (successBody targetUrl summary)⟩,
         [.fetchGet targetUrl, .geminiPost (promptFor text)])
    | .badShape msg _ =>
        (⟨500, true, some (srvSetupErrorBody msg)⟩,
         [.fetchGet targetUrl, .geminiPost (promptFor text)])
    | .httpErr _ data =>
        (⟨500, true, some (srvProcessingErrorBody data)⟩,
         [.fetchGet targetUrl, .geminiPost (promptFor text)])
    | .netErr msg =>
        (⟨500, true, some (srvNoResponseBody msg)⟩,
         [.fetchGet targetUrl, .geminiPost (promptFor text)])

/-- The long-running server's request callback (summarize.js lines
341–480): OPTIONS preflight, `GET /`, `POST /summarize` (with its own
`JSON.parse` try/catch answering 400 on a malformed body), and a 404
fallthrough. -/
def serverHandle (up : Upstream) (req : ServerRequest) :
    ServerResponse × List OutCall :=
  if req.method = "OPTIONS".data then
    (⟨204, false, none⟩, [])
  else if req.pathname = "/".data ∧ req.method = "GET".data then
    (⟨200, true, some welcomeBody⟩, [])
  else if req.pathname = "/summarize".data ∧ req.method = "POST".data then
    match req.body with
    | .malformed _ _ =>
        (⟨400, true, some (jsonErr "Invalid JSON in request body".data)⟩, [])
    | .parsed urlField =>
      if jsFalsy urlField then
        (⟨400, true, some (jsonErr "URL is required".data)⟩, [])
      else serverPipeline up (urlValue urlField)
  else
    (⟨404, true, some (jsonErr "Not found".data)⟩, [])

/-- A POST invocation of the function-style handler whose body parsed to
`{ url: targetUrl }`. -/
def postEvent (targetUrl : List Char) : LambdaEvent :=
  ⟨"POST".data, .parsed (.str targetUrl)⟩

/-- A `POST /summarize` server request whose body parsed to
`{ url: targetUrl }`. -/
def postReq (targetUrl : List Char) : ServerRequest :=
  ⟨"POST".data, "/summarize".data, .parsed (.str targetUrl)⟩

/-- An upstream HTTP response as delivered to `makeRequest`'s `end`
handler: status code, headers and the accumulated body text. -/
structure UpstreamHttpResponse where
  statusCode : Nat
  headers : List (List Char × List Char)
  body : List Char

/-- What the network did for one `makeRequest` call: delivered a response,
or emitted a request error (DNS failure, connection refused, …). -/
inductive NetOutcome where
  | response (r : UpstreamHttpResponse) : NetOutcome
  | connError (message : List Char) : NetOutcome

/-- `response.data` as resolved by `makeRequest`: parsed JSON or the raw
body string. -/
inductive RespData where
  | json (j : Json) : RespData
  | raw (s : List Char) : RespData

/-- How one `makeRequest` promise settles. -/
inductive MakeRequestResult where
  | resolved (data : RespData) (status : Nat)
      (headers : List (List Char × List Char)) : MakeRequestResult
  | rejectedResponse (status : Nat) (data : List Char)
      (headers : List (List Char × List Char)) : MakeRequestResult
  | rejectedRequest (message : List Char) : MakeRequestResult

/-- JavaScript `hay.includes(needle)` on strings: some contiguous substring
of `hay` equals `needle`. -/
def includesSub (needle : List Char) : List Char → Bool
  | [] => needle.isEmpty
  | c :: rest => needle.isPrefixOf (c :: rest) || includesSub needle rest

/-- `res.headers['content-type'] || ''` (line 30). -/
def contentTypeOf (headers : List (List Char × List Char)) : List Char :=
  (headers.lookup "content-type".data).getD []

/-- `makeRequest` (summarize.js lines 6–76), parametrised by the behavior
of `JSON.parse` (`parseJson`, `none` when the parse throws) and by the
network's outcome.  A 2xx response resolves — with parsed JSON if the
content-type includes `application/json` and the parse succeeds, with the
raw body otherwise (the `try`/`catch` swallows the parse failure); a
non-2xx response rejects with the response's status, body and headers; a
request error rejects with the error message. -/
def makeRequest (parseJson : List Char → Option Json) (net : NetOutcome) :
    MakeRequestResult :=
  match net with
  | .connError msg => .rejectedRequest msg
  | .response r =>
    if 200 ≤ r.statusCode ∧ r.statusCode < 300 then
      if includesSub "application/json".data (contentTypeOf r.headers) then
        match parseJson r.body with
        | some j => .resolved (.json j) r.statusCode r.headers
        | none => .resolved (.raw r.body) r.statusCode r.headers
      else .resolved (.raw r.body) r.statusCode r.headers
    else .rejectedResponse r.statusCode r.body r.headers

/-- Whitespace characters renamed to a plain space, other characters kept:
`collapseRuns` produces a sublist of this image of its input. -/
def wsMap (c : Char) : Char := if isWsChar c then ' ' else c

/-- A text in the normal form produced by lines 126–129: tag-free, all
whitespace is single plain spaces, and no whitespace at either end. -/
def CleanForm (l : List Char) : Prop :=
  TagFree l ∧ WsIsSpace l ∧ NoWsRun l ∧ TrimmedEnds l

/-- Fixture: a target URL whose fetch rejects with a 404 response, with a
summarization call that would succeed. -/
def upFetch404 : Upstream :=
  ⟨fun _ => .httpErr 404 "not found".data, fun _ => .success "a summary".data⟩

/-- Fixture: a fetch that succeeds with markup text, and a summarization
oracle that answers every prompt with the same summary, echoing the prompt
back — so the body of a successful response reveals the prompt that was
sent. -/
def upEcho : Upstream :=
  ⟨fun _ => .success "<b>hi</b>  there".data, fun p => .success p⟩

/-- Fixture: a fetch that fails at the network level. -/
def upNetDown : Upstream :=
  ⟨fun _ => .netErr "connect ECONNREFUSED".data,
   fun _ => .success "a summary".data⟩

/-- Fixture: a parser that always fails (no body is valid JSON). -/
def noParse : List Char → Option Json := fun _ => none

/-- Fixture: a 404 upstream response. -/
def resp404 : UpstreamHttpResponse := ⟨404, [], "not found".data⟩

/-- Fixture: a 200 response declaring JSON whose body is not valid JSON. -/
def respBadJson : UpstreamHttpResponse :=
  ⟨200, [("content-type".data, "application/json; charset=utf-8".data)],
   "not json".data⟩

/-- Fixture: a fetch that succeeds with markup text and a summarization
oracle that gives the same summary whatever prompt it receives. -/
def upConst : Upstream :=
  ⟨fun _ => .success "<b>hi</b>  there".data,
   fun _ => .success "A page about hi.".data⟩

theorem stripTagsAux_noGt {l : List Char} (h : '>' ∉ l) (acc : List Char) :
    stripTagsAux (some acc) l = '<' :: (acc.reverse ++ l) := by
  induction l generalizing acc with
  | nil => simp [stripTagsAux]
  | cons c rest ih =>
    have hc : c ≠ '>' := fun e => h (e ▸ List.mem_cons_self c rest)
    have hr : '>' ∉ rest := fun m => h (List.mem_cons_of_mem c m)
    have hc' : ¬(c = '>') := hc
    simp only [stripTagsAux, if_neg hc', ih hr, List.reverse_cons,
      List.append_assoc, List.singleton_append]

theorem tagFree_of_not_gt {l : List Char} (h : '>' ∉ l) : TagFree l := by
  induction l with
  | nil => exact List.Pairwise.nil
  | cons c rest ih =>
    have hr : '>' ∉ rest := fun m => h (List.mem_cons_of_mem c m)
    refine List.Pairwise.cons ?_ (ih hr)
    rintro b hb ⟨_, hb'⟩
    exact hr (hb' ▸ hb)

theorem stripTags_eq_self : ∀ {l : List Char}, TagFree l → stripTags l = l := by
  intro l
  unfold stripTags
  induction l with
  | nil => intro _; rfl
  | cons c rest ih =>
    intro h
    rcases List.pairwise_cons.mp h with ⟨hhead, htail⟩
    by_cases hc : c = '<'
    · have hr : '>' ∉ rest := fun m => (hhead _ m) ⟨hc, rfl⟩
      subst hc
      simp only [stripTagsAux, if_pos rfl]
      simpa using stripTagsAux_noGt hr []
    · simp only [stripTagsAux, if_neg hc]
      rw [ih htail]

theorem stripTagsAux_tagFree (l : List Char) :
    TagFree (stripTagsAux none l) ∧
      ∀ acc, '>' ∉ acc → TagFree (stripTagsAux (some acc) l) := by
  induction l with
  | nil =>
    refine ⟨List.Pairwise.nil, ?_⟩
    intro acc hacc
    simp only [stripTagsAux]
    refine List.Pairwise.cons ?_ (tagFree_of_not_gt (by simpa using hacc))
    rintro b hb ⟨_, hb'⟩
    exact hacc (List.mem_reverse.mp (hb' ▸ hb))
  | cons c rest ih =>
    obtain ⟨ihA, ihB⟩ := ih
    constructor
    · by_cases hc : c = '<'
      · subst hc
        simp only [stripTagsAux, if_pos rfl]
        exact ihB [] (by simp)
      · simp only [stripTagsAux, if_neg hc]
        refine List.Pairwise.cons ?_ ihA
        rintro b hb ⟨hc', _⟩
        exact hc hc'
    · intro acc hacc
      by_cases hc : c = '>'
      · subst hc
        simp only [stripTagsAux, if_pos rfl]
        refine List.Pairwise.cons ?_ ihA
        rintro b hb ⟨h1, _⟩
        exact absurd h1 (by decide)
      · simp only [stripTagsAux, if_neg hc]
        refine ihB (c :: acc) ?_
        intro hm
        rcases List.mem_cons.mp hm with h1 | h1
        · exact hc h1.symm
        · exact hacc h1

theorem tagFree_stripTags (l : List Char) : TagFree (stripTags l) :=
  (stripTagsAux_tagFree l).1

theorem wsMap_eq_lt {a : Char} (h : wsMap a = '<') : a = '<' := by
  unfold wsMap at h
  by_cases hw : isWsChar a
  · rw [if_pos hw] at h; exact absurd h (by decide)
  · rwa [if_neg hw] at h

theorem wsMap_eq_gt {a : Char} (h : wsMap a = '>') : a = '>' := by
  unfold wsMap at h
  by_cases hw : isWsChar a
  · rw [if_pos hw] at h; exact absurd h (by decide)
  · rwa [if_neg hw] at h

theorem tagFree_map_wsMap {l : List Char} (h : TagFree l) :
    TagFree (l.map wsMap) := by
  unfold TagFree at *
  rw [List.pairwise_map]
  refine h.imp ?_
  rintro a b hab ⟨ha, hb⟩
  exact hab ⟨wsMap_eq_lt ha, wsMap_eq_gt hb⟩

theorem collapseRuns_singleton (c : Char) :
    collapseRuns [c] = if isWsChar c then [' '] else [c] := rfl

theorem collapseRuns_cons₂ (c d : Char) (r : List Char) :
    collapseRuns (c :: d :: r)
      = if isWsChar c && isWsChar d then collapseRuns (d :: r)
        else (if isWsChar c then ' ' else c) :: collapseRuns (d :: r) := rfl

theorem collapseRuns_sublist (l : List Char) :
    List.Sublist (collapseRuns l) (l.map wsMap) := by
  induction l with
  | nil => simp [collapseRuns]
  | cons c rest ih =>
    cases rest with
    | nil =>
      have : collapseRuns [c] = [wsMap c] := by
        rw [collapseRuns_singleton]
        unfold wsMap
        by_cases h : isWsChar c <;> simp [h]
      rw [this]; simp
    | cons d r =>
      by_cases h : (isWsChar c && isWsChar d) = true
      · rw [collapseRuns_cons₂, if_pos h]
        exact ih.cons _
      · rw [show collapseRuns (c :: d :: r)
            = wsMap c :: collapseRuns (d :: r) from by
          rw [collapseRuns_cons₂, if_neg h]; rfl]
        exact ih.cons₂ _

theorem tagFree_collapseRuns {l : List Char} (h : TagFree l) :
    TagFree (collapseRuns l) :=
  (tagFree_map_wsMap h).sublist (collapseRuns_sublist l)

theorem collapseRuns_head {d : Char} (hd : isWsChar d = false) (r : List Char) :
    ∃ t, collapseRuns (d :: r) = d :: t := by
  cases r with
  | nil =>
    exact ⟨[], by rw [collapseRuns_singleton, if_neg (by simp [hd])]⟩
  | cons e r' =>
    refine ⟨collapseRuns (e :: r'), ?_⟩
    rw [collapseRuns_cons₂, if_neg (by simp [hd]), if_neg (by simp [hd])]

theorem wsIsSpace_collapseRuns (l : List Char) : WsIsSpace (collapseRuns l) := by
  induction l with
  | nil => intro x hx _; simp [collapseRuns] at hx
  | cons c rest ih =>
    cases rest with
    | nil =>
      intro x hx hwx
      by_cases h : isWsChar c
      · rw [collapseRuns_singleton, if_pos h] at hx
        simpa using hx
      · rw [collapseRuns_singleton, if_neg h] at hx
        rw [List.mem_singleton.mp hx] at hwx
        exact absurd hwx h
    | cons d r =>
      intro x hx hwx
      by_cases h : (isWsChar c && isWsChar d) = true
      · rw [collapseRuns_cons₂, if_pos h] at hx
        exact ih x hx hwx
      · rw [collapseRuns_cons₂, if_neg h] at hx
        rcases List.mem_cons.mp hx with h1 | h1
        · by_cases hw : isWsChar c
          · rw [if_pos hw] at h1; exact h1
          · rw [if_neg hw] at h1; rw [h1] at hwx; exact absurd hwx hw
        · exact ih x h1 hwx

theorem noWsRun_collapseRuns (l : List Char) : NoWsRun (collapseRuns l) := by
  induction l with
  | nil => simp [collapseRuns, NoWsRun]
  | cons c rest ih =>
    cases rest with
    | nil =>
      by_cases h : isWsChar c
      · rw [NoWsRun, collapseRuns_singleton, if_pos h]
        exact List.chain'_singleton _
      · rw [NoWsRun, collapseRuns_singleton, if_neg h]
        exact List.chain'_singleton _
    | cons d r =>
      by_cases h : (isWsChar c && isWsChar d) = true
      · rw [NoWsRun, collapseRuns_cons₂, if_pos h]
        exact ih
      · rw [NoWsRun, collapseRuns_cons₂, if_neg h]
        rw [List.chain'_cons']
        refine ⟨?_, ih⟩
        intro y hy
        cases hd : isWsChar d
        · obtain ⟨t, ht⟩ := collapseRuns_head hd r
          rw [ht] at hy
          simp only [List.head?_cons, Option.mem_def, Option.some.injEq] at hy
          rintro ⟨_, hwy⟩
          rw [← hy, hd] at hwy
          exact Bool.false_ne_true hwy
        · have hc : isWsChar c = false := by
            cases hcc : isWsChar c
            · rfl
            · exact absurd (by rw [hcc, hd]; rfl) h
          rw [if_neg (by simp [hc])]
          rintro ⟨hwc, _⟩
          rw [hc] at hwc
          exact Bool.false_ne_true hwc

theorem collapseRuns_eq_self :
    ∀ {l : List Char}, WsIsSpace l → NoWsRun l → collapseRuns l = l := by
  intro l
  induction l with
  | nil => intro _ _; rfl
  | cons c rest ih =>
    intro hs hr
    cases rest with
    | nil =>
      by_cases hw : isWsChar c
      · rw [collapseRuns_singleton, if_pos hw,
          hs c (List.mem_singleton_self c) hw]
      · rw [collapseRuns_singleton, if_neg hw]
    | cons d r =>
      have hpair := (List.chain'_cons.mp hr).1
      have h : (isWsChar c && isWsChar d) = false := by
        cases hc : isWsChar c
        · rfl
        · cases hd : isWsChar d
          · simp
          · exact absurd ⟨hc, hd⟩ hpair
      rw [collapseRuns_cons₂, if_neg (by simp [h])]
      have htail : collapseRuns (d :: r) = d :: r :=
        ih (fun x hx => hs x (List.mem_cons_of_mem c hx))
          (List.chain'_cons.mp hr).2
      rw [htail]
      by_cases hw : isWsChar c
      · rw [if_pos hw, hs c (List.mem_cons_self c _) hw]
      · rw [if_neg hw]

theorem head?_dropWhile {p : Char → Bool} :
    ∀ {l : List Char} {c : Char}, (l.dropWhile p).head? = some c → p c = false := by
  intro l
  induction l with
  | nil => intro c h; simp [List.dropWhile] at h
  | cons a rest ih =>
    intro c h
    cases hpa : p a
    · rw [List.dropWhile_cons, if_neg (by simp [hpa])] at h
      simp only [List.head?_cons, Option.some.injEq] at h
      rw [← h]; exact hpa
    · rw [List.dropWhile_cons, if_pos (by simp [hpa])] at h
      exact ih h

theorem getLast?_dropWhile {p : Char → Bool} :
    ∀ {l : List Char} {c : Char},
      (l.dropWhile p).getLast? = some c → l.getLast? = some c := by
  intro l
  induction l with
  | nil => intro c h; simp [List.dropWhile] at h
  | cons a rest ih =>
    intro c h
    cases hpa : p a
    · rwa [List.dropWhile_cons, if_neg (by simp [hpa])] at h
    · rw [List.dropWhile_cons, if_pos (by simp [hpa])] at h
      have hr := ih h
      cases rest with
      | nil => simp at hr
      | cons b r => rw [List.getLast?_cons_cons]; exact hr

theorem dropWhile_eq_self_of_head {p : Char → Bool} {l : List Char}
    (h : ∀ c ∈ l.head?, p c = false) : l.dropWhile p = l := by
  cases l with
  | nil => rfl
  | cons a rest =>
    rw [List.dropWhile_cons,
      if_neg (by simp [h a (by simp [List.head?_cons])])]

theorem trimWs_sublist (l : List Char) : List.Sublist (trimWs l) l := by
  unfold trimWs
  have h1 : List.Sublist (l.dropWhile isWsChar) l := List.dropWhile_sublist _
  have h2 : List.Sublist ((l.dropWhile isWsChar).reverse.dropWhile isWsChar)
      (l.dropWhile isWsChar).reverse := List.dropWhile_sublist _
  have h3 := List.reverse_sublist.mpr h2
  rw [List.reverse_reverse] at h3
  exact h3.trans h1

theorem tagFree_trimWs {l : List Char} (h : TagFree l) : TagFree (trimWs l) :=
  h.sublist (trimWs_sublist l)

theorem wsIsSpace_of_sublist {l m : List Char} (hs : List.Sublist l m)
    (h : WsIsSpace m) : WsIsSpace l :=
  fun c hc => h c (hs.subset hc)

theorem noWsRun_dropWhile (p : Char → Bool) :
    ∀ {l : List Char}, NoWsRun l → NoWsRun (l.dropWhile p) := by
  intro l
  induction l with
  | nil => intro h; simpa [List.dropWhile] using h
  | cons a rest ih =>
    intro h
    cases hpa : p a
    · rwa [List.dropWhile_cons, if_neg (by simp [hpa])]
    · rw [List.dropWhile_cons, if_pos (by simp [hpa])]
      exact ih (List.chain'_cons'.mp h).2

theorem noWsRun_reverse {l : List Char} (h : NoWsRun l) : NoWsRun l.reverse := by
  rw [NoWsRun, List.chain'_reverse]
  exact h.imp fun a b hab => fun hp => hab ⟨hp.2, hp.1⟩

theorem noWsRun_trimWs {l : List Char} (h : NoWsRun l) : NoWsRun (trimWs l) := by
  unfold trimWs
  exact noWsRun_reverse (noWsRun_dropWhile _ (noWsRun_reverse (noWsRun_dropWhile _ h)))

theorem trimmedEnds_trimWs (l : List Char) : TrimmedEnds (trimWs l) := by
  constructor
  · intro c hc
    rw [Option.mem_def] at hc
    unfold trimWs at hc
    rw [List.head?_reverse] at hc
    have h2 := getLast?_dropWhile hc
    rw [List.getLast?_reverse] at h2
    exact head?_dropWhile h2
  · intro c hc
    rw [Option.mem_def] at hc
    unfold trimWs at hc
    rw [List.getLast?_reverse] at hc
    exact head?_dropWhile hc

theorem trimWs_eq_self {l : List Char} (h : TrimmedEnds l) : trimWs l = l := by
  unfold trimWs
  rw [dropWhile_eq_self_of_head h.1]
  rw [dropWhile_eq_self_of_head (by
    intro c hc
    rw [Option.mem_def, List.head?_reverse] at hc
    exact h.2 c hc)]
  exact List.reverse_reverse l

theorem cleanForm_cleanText (l : List Char) : CleanForm (cleanText l) :=
  ⟨tagFree_trimWs (tagFree_collapseRuns (tagFree_stripTags l)),
   wsIsSpace_of_sublist (trimWs_sublist _) (wsIsSpace_collapseRuns _),
   noWsRun_trimWs (noWsRun_collapseRuns _),
   trimmedEnds_trimWs _⟩

theorem cleanText_eq_self {l : List Char} (h : CleanForm l) : cleanText l = l := by
  unfold cleanText
  rw [stripTags_eq_self h.1, collapseRuns_eq_self h.2.1 h.2.2.1,
    trimWs_eq_self h.2.2.2]

theorem head?_take_pos {l : List Char} {n : Nat} (h : 0 < n) :
    (l.take n).head? = l.head? := by
  cases l with
  | nil => simp
  | cons a rest =>
    cases n with
    | zero => exact absurd h (by simp)
    | succ m => simp [List.take_succ_cons]

theorem length_truncate_of_long {l : List Char} (h : l.length > 10000) :
    (l.take 10000 ++ ellipsisMark).length = 10003 := by
  rw [List.length_append, List.length_take]
  have : min 10000 l.length = 10000 := by omega
  rw [this]
  rfl

theorem cleanForm_truncate {l : List Char} (h : CleanForm l) :
    CleanForm (truncateContent l) := by
  unfold truncateContent
  by_cases hl : l.length > 10000
  · rw [if_pos hl]
    obtain ⟨h1, h2, h3, h4⟩ := h
    refine ⟨?_, ?_, ?_, ?_, ?_⟩
    · refine List.pairwise_append.mpr
        ⟨h1.sublist (List.take_sublist _ _),
         tagFree_of_not_gt (by decide), ?_⟩
      intro a _ b hb
      rintro ⟨_, hbgt⟩
      rw [hbgt] at hb
      revert hb
      decide
    · intro c hc hwc
      rcases List.mem_append.mp hc with h5 | h5
      · exact h2 c ((List.take_sublist _ _).subset h5) hwc
      · have : c = '.' := by
          rcases List.mem_cons.mp h5 with h6 | h6
          · exact h6
          rcases List.mem_cons.mp h6 with h7 | h7
          · exact h7
          · simpa [ellipsisMark] using h7
        rw [this] at hwc
        exact absurd hwc (by decide)
    · refine List.chain'_append.mpr ⟨List.Chain'.take h3 _, ?_, ?_⟩
      · exact List.chain'_cons.mpr ⟨by decide,
          List.chain'_cons.mpr ⟨by decide, List.chain'_singleton _⟩⟩
      · intro x _ y hy
        have h8 : '.' = y := by
          simp only [ellipsisMark] at hy
          simpa using hy
        have : y = '.' := h8.symm
        rw [this]
        rintro ⟨_, hwy⟩
        exact absurd hwy (by decide)
    · intro c hc
      have hne : l.take 10000 ≠ [] := by
        have hlen : (l.take 10000).length = 10000 := by
          rw [List.length_take]; omega
        intro he
        rw [he] at hlen
        simp at hlen
      rw [Option.mem_def, List.head?_append_of_ne_nil _ hne,
        head?_take_pos (by omega)] at hc
      exact h4.1 c hc
    · intro c hc
      rw [Option.mem_def,
        List.getLast?_append_of_ne_nil _ (by simp [ellipsisMark])] at hc
      have : c = '.' := by
        simp [ellipsisMark] at hc
        exact hc.symm
      rw [this]
      decide
  · rw [if_neg hl]
    exact h

theorem truncateContent_idem (l : List Char) :
    truncateContent (truncateContent l) = truncateContent l := by
  unfold truncateContent
  by_cases hl : l.length > 10000
  · rw [if_pos hl, if_pos (by rw [length_truncate_of_long hl]; omega)]
    have htake : (l.take 10000 ++ ellipsisMark).take 10000 = l.take 10000 := by
      have hlen : (l.take 10000).length = 10000 := by
        rw [List.length_take]; omega
      rw [List.take_append_eq_append_take, hlen]
      simp
    rw [htake]
  · rw [if_neg hl, if_neg hl]

theorem normalizeContent_idem (l : List Char) :
    normalizeContent (normalizeContent l) = normalizeContent l := by
  unfold normalizeContent
  rw [cleanText_eq_self (cleanForm_truncate (cleanForm_cleanText l))]
  exact truncateContent_idem (cleanText l)

theorem noWsRun_of_no_ws :
    ∀ {l : List Char}, (∀ c ∈ l, isWsChar c = false) → NoWsRun l := by
  intro l
  induction l with
  | nil => intro _; exact List.chain'_nil
  | cons a rest ih =>
    intro h
    refine List.chain'_cons'.mpr ⟨?_, ih fun c hc => h c (List.mem_cons_of_mem a hc)⟩
    rintro y _ ⟨hwa, _⟩
    rw [h a (List.mem_cons_self a rest)] at hwa
    exact Bool.false_ne_true hwa

theorem cleanForm_replicate_a (n : Nat) : CleanForm (List.replicate n 'a') := by
  refine ⟨?_, ?_, ?_, ?_, ?_⟩
  · refine tagFree_of_not_gt ?_
    intro hm
    exact absurd (List.eq_of_mem_replicate hm) (by decide)
  · intro c hc hwc
    rw [List.eq_of_mem_replicate hc] at hwc
    exact absurd hwc (by decide)
  · refine noWsRun_of_no_ws ?_
    intro c hc
    rw [List.eq_of_mem_replicate hc]
    rfl
  · intro c hc
    rw [List.eq_of_mem_replicate (List.mem_of_mem_head? hc)]
    rfl
  · intro c hc
    rw [List.eq_of_mem_replicate (List.mem_of_mem_getLast? hc)]
    rfl

theorem cleanText_replicate_a (n : Nat) :
    cleanText (List.replicate n 'a') = List.replicate n 'a' :=
  cleanText_eq_self (cleanForm_replicate_a n)

theorem jsFalsy_str_false {u : List Char} (h : u ≠ []) :
    jsFalsy (.str u) = false := by
  cases u with
  | nil => exact absurd rfl h
  | cons a rest => rfl

theorem exportsHandler_post {key : Option (List Char)} {up : Upstream}
    {u : List Char} (h : u ≠ []) :
    exportsHandler key up (postEvent u) = handlerPipeline key up u := by
  unfold exportsHandler postEvent
  dsimp only
  rw [if_neg (by decide), if_neg (by decide), jsFalsy_str_false h]
  rfl

theorem serverHandle_post {up : Upstream} {u : List Char} (h : u ≠ []) :
    serverHandle up (postReq u) = serverPipeline up u := by
  unfold serverHandle postReq
  dsimp only
  rw [if_neg (by decide), if_neg (by decide), if_pos (by decide),
    jsFalsy_str_false h]
  rfl

/-- Claim C3: the normalizer applies exactly, in order, tag stripping
(`<[^>]*>` → one space), whitespace collapse-and-trim, and then truncation;
the cleaned text has only single plain spaces with trimmed ends; the
truncation step leaves a result of length ≤ 10,000 unchanged and turns a
longer result into exactly its first 10,000 characters plus the literal
`'...'` marker, for a total length of 10,003. -/
theorem claim_C3_normalizer_stages (s : List Char) :
    normalizeContent s = truncateContent (trimWs (collapseRuns (stripTags s)))
    ∧ WsIsSpace (cleanText s) ∧ NoWsRun (cleanText s) ∧ TrimmedEnds (cleanText s)
    ∧ normalizeContent s =
        (if (cleanText s).length > 10000
         then (cleanText s).take 10000 ++ ellipsisMark
         else cleanText s)
    ∧ (normalizeContent s).length =
        (if (cleanText s).length > 10000 then 10003 else (cleanText s).length) := by
  obtain ⟨_, h2, h3, h4⟩ := cleanForm_cleanText s
  refine ⟨rfl, h2, h3, h4, rfl, ?_⟩
  unfold normalizeContent truncateContent
  by_cases hl : (cleanText s).length > 10000
  · rw [if_pos hl, if_pos hl]
    exact length_truncate_of_long hl
  · rw [if_neg hl, if_neg hl]

/-- Claim C4: normalization is idempotent — normalizing an
already-normalized text returns it unchanged. -/
theorem claim_C4_normalize_idempotent (s : List Char) :
    normalizeContent (normalizeContent s) = normalizeContent s :=
  normalizeContent_idem s

/-- Claim C2: a POST whose JSON body lacks `url` or carries `url = ""` gets
a 400 response with the `URL is required` error payload and an empty
outbound-call trace, in both the function-style handler and the server
variant, whatever the upstream oracles and configuration are. -/
theorem claim_C2_validation_no_outbound (key : Option (List Char))
    (up : Upstream) (f : UrlField) (h : jsFalsy f = true) :
    exportsHandler key up ⟨"POST".data, .parsed f⟩
      = (⟨400, corsHeadersFn, some (jsonErr "URL is required".data)⟩, [])
    ∧ serverHandle up ⟨"POST".data, "/summarize".data, .parsed f⟩
      = (⟨400, true, some (jsonErr "URL is required".data)⟩, []) := by
  constructor
  · unfold exportsHandler
    dsimp only
    rw [if_neg (by decide), if_neg (by decide), if_pos h]
  · unfold serverHandle
    dsimp only
    rw [if_neg (by decide), if_neg (by decide), if_pos (by decide), if_pos h]

/-- Witness for C2 at a concrete missing-`url` request. -/
theorem claim_C2_witness :
    exportsHandler none upEcho ⟨"POST".data, .parsed .missing⟩
      = (⟨400, corsHeadersFn, some (jsonErr "URL is required".data)⟩, [])
    ∧ serverHandle upEcho ⟨"POST".data, "/summarize".data, .parsed .missing⟩
      = (⟨400, true, some (jsonErr "URL is required".data)⟩, []) :=
  claim_C2_validation_no_outbound none upEcho .missing rfl

/-- Claim C8: an invocation of the function-style handler whose method is
neither OPTIONS nor POST returns 405 with the `Method not allowed` body and
the CORS headers, for every request body and with an empty outbound-call
trace. -/
theorem claim_C8_method_not_allowed (key : Option (List Char)) (up : Upstream)
    (m : List Char) (body : ReqBody)
    (h1 : m ≠ "OPTIONS".data) (h2 : m ≠ "POST".data) :
    exportsHandler key up ⟨m, body⟩
      = (⟨405, corsHeadersFn, some (jsonErr "Method not allowed".data)⟩, []) := by
  unfold exportsHandler
  dsimp only
  rw [if_neg h1, if_pos h2]

/-- Witness for C8 at a concrete DELETE invocation. -/
theorem claim_C8_witness :
    exportsHandler none upEcho ⟨"DELETE".data, .parsed (.str "http://a".data)⟩
      = (⟨405, corsHeadersFn, some (jsonErr "Method not allowed".data)⟩, []) :=
  claim_C8_method_not_allowed none upEcho "DELETE".data
    (.parsed (.str "http://a".data)) (by decide) (by decide)

/-- Claim C9: a server request that is not OPTIONS, not `GET /` and not
`POST /summarize` gets a 404 with the `Not found` body and no outbound
call. -/
theorem claim_C9_not_found (up : Upstream) (req : ServerRequest)
    (h1 : req.method ≠ "OPTIONS".data)
    (h2 : ¬(req.pathname = "/".data ∧ req.method = "GET".data))
    (h3 : ¬(req.pathname = "/summarize".data ∧ req.method = "POST".data)) :
    serverHandle up req = (⟨404, true, some (jsonErr "Not found".data)⟩, []) := by
  unfold serverHandle
  rw [if_neg h1, if_neg h2, if_neg h3]

/-- Witness for C9 at a concrete `GET /nope` request. -/
theorem claim_C9_witness :
    serverHandle upEcho ⟨"GET".data, "/nope".data, .parsed .missing⟩
      = (⟨404, true, some (jsonErr "Not found".data)⟩, []) :=
  claim_C9_not_found upEcho ⟨"GET".data, "/nope".data, .parsed .missing⟩
    (by decide) (by decide) (by decide)

/-- Counterexample to C5: a POST to the function-style handler whose body is
not valid JSON is answered with status 500, not 400 — the `SyntaxError`
thrown by `JSON.parse` is caught by the outer catch, has neither `response`
nor `request`, and lands in the 500 `Unexpected error` branch. -/
theorem claim_C5_counterexample :
    (exportsHandler none upEcho
        ⟨"POST".data,
         .malformed "Unexpected token u in JSON at position 0".data
           "SyntaxError".data⟩).1.statusCode = 500
    ∧ (exportsHandler none upEcho
        ⟨"POST".data,
         .malformed "Unexpected token u in JSON at position 0".data
           "SyntaxError".data⟩).1.statusCode ≠ 400 := by
  exact ⟨rfl, by decide⟩

/-- Amended C5: only the server variant answers an unparsable body with 400
(`Invalid JSON in request body`); the function-style handler answers 500
with the `Unexpected error` payload.  Neither issues an outbound call. -/
theorem claim_C5_amended (key : Option (List Char)) (up : Upstream)
    (msg stack : List Char) :
    serverHandle up ⟨"POST".data, "/summarize".data, .malformed msg stack⟩
      = (⟨400, true, some (jsonErr "Invalid JSON in request body".data)⟩, [])
    ∧ exportsHandler key up ⟨"POST".data, .malformed msg stack⟩
      = (⟨500, corsHeadersFn, some (unexpectedErrorBody msg stack)⟩, []) := by
  constructor
  · unfold serverHandle
    dsimp only
    rw [if_neg (by decide), if_neg (by decide), if_pos (by decide)]
  · unfold exportsHandler
    dsimp only
    rw [if_neg (by decide), if_neg (by decide)]

/-- Counterexample to C7: when the target URL's fetch rejects with upstream
status 404, the server variant answers 500, not the upstream's reported
status. -/
theorem claim_C7_counterexample :
    upFetch404.fetch "http://example.com/x".data
      = .httpErr 404 "not found".data
    ∧ (serverHandle upFetch404 (postReq "http://example.com/x".data)).1.statusCode
      = 500
    ∧ (serverHandle upFetch404 (postReq "http://example.com/x".data)).1.statusCode
      ≠ 404 := by
  exact ⟨rfl, rfl, by decide⟩

/-- Amended C7: the function-style handler maps an upstream failure to the
upstream's reported status when one is available (`status || 500`, so 500
for a zero status) and to 500 for network-level failures; the server
variant answers 500 for every upstream failure, fetch or summarization,
whether or not an upstream status is available. -/
theorem claim_C7_amended (up : Upstream) (key u : List Char) (hu : u ≠ []) :
    (∀ st data, up.fetch u = .httpErr st data →
        (exportsHandler (some key) up (postEvent u)).1.statusCode = statusOr500 st
        ∧ (serverHandle up (postReq u)).1.statusCode = 500)
    ∧ (∀ msg, up.fetch u = .netErr msg →
        (exportsHandler (some key) up (postEvent u)).1.statusCode = 500
        ∧ (serverHandle up (postReq u)).1.statusCode = 500)
    ∧ (∀ text st data, up.fetch u = .success text →
        up.gemini (promptFor (normalizeContent text)) = .httpErr st data →
        (exportsHandler (some key) up (postEvent u)).1.statusCode = statusOr500 st)
    ∧ (∀ text msg, up.fetch u = .success text →
        up.gemini (promptFor (normalizeContent text)) = .netErr msg →
        (exportsHandler (some key) up (postEvent u)).1.statusCode = 500)
    ∧ (∀ text st data, up.fetch u = .success text →
        up.gemini (promptFor text) = .httpErr st data →
        (serverHandle up (postReq u)).1.statusCode = 500)
    ∧ (∀ text msg, up.fetch u = .success text →
        up.gemini (promptFor text) = .netErr msg →
        (serverHandle up (postReq u)).1.statusCode = 500) := by
  rw [exportsHandler_post hu, serverHandle_post hu]
  unfold handlerPipeline serverPipeline
  refine ⟨?_, ?_, ?_, ?_, ?_, ?_⟩
  · intro st data hf
    rw [hf]
    exact ⟨rfl, rfl⟩
  · intro msg hf
    rw [hf]
    exact ⟨rfl, rfl⟩
  · intro text st data hf hg
    rw [hf]
    dsimp only
    rw [hg]
  · intro text msg hf hg
    rw [hf]
    dsimp only
    rw [hg]
  · intro text st data hf hg
    rw [hf]
    dsimp only
    rw [hg]
  · intro text msg hf hg
    rw [hf]
    dsimp only
    rw [hg]

/-- Witness for the amended C7: on a 404 fetch rejection the handler
answers 404, the server 500. -/
theorem claim_C7_witness :
    (exportsHandler (some "k".data) upFetch404
        (postEvent "http://example.com/x".data)).1.statusCode = 404
    ∧ (serverHandle upFetch404 (postReq "http://example.com/x".data)).1.statusCode
      = 500 := by
  have h := (claim_C7_amended upFetch404 "k".data "http://example.com/x".data
    (by decide)).1 404 "not found".data rfl
  exact ⟨h.1, h.2⟩

/-- Counterexample to C1: one request and one upstream behavior on which
the two variants answer different statuses — the fetch rejects with 404,
the function-style handler reports 404 while the server variant reports
500. -/
theorem claim_C1_counterexample :
    (exportsHandler (some "k".data) upFetch404
        (postEvent "http://example.com/x".data)).1.statusCode = 404
    ∧ (serverHandle upFetch404 (postReq "http://example.com/x".data)).1.statusCode
      = 500
    ∧ (404 : Nat) ≠ 500 := by
  exact ⟨rfl, rfl, by decide⟩

/-- Amended C1: the two variants share the intake contract but not the
pipeline.  On a successful fetch the handler posts the prompt built from
the *normalized* text while the server posts the prompt built from the raw
fetched text; when the summarization oracle answers both prompts with the
same summary both variants return 200 with the same `{url, summary}` body;
but on a fetch rejection carrying an upstream status the handler reports
that status while the server reports 500. -/
theorem claim_C1_amended (up : Upstream) (key u text summary : List Char)
    (hu : u ≠ []) :
    (up.fetch u = .success text →
        (exportsHandler (some key) up (postEvent u)).2
          = [.fetchGet u, .geminiPost (promptFor (normalizeContent text))]
        ∧ (serverHandle up (postReq u)).2
          = [.fetchGet u, .geminiPost (promptFor text)])
    ∧ (up.fetch u = .success text →
        up.gemini (promptFor (normalizeContent text)) = .success summary →
        up.gemini (promptFor text) = .success summary →
        (exportsHandler (some key) up (postEvent u)).1.statusCode = 200
        ∧ (serverHandle up (postReq u)).1.statusCode = 200
        ∧ (exportsHandler (some key) up (postEvent u)).1.body
            = some (successBody u summary)
        ∧ (serverHandle up (postReq u)).1.body = some (successBody u summary))
    ∧ (∀ st data, up.fetch u = .httpErr st data →
        (exportsHandler (some key) up (postEvent u)).1.statusCode = statusOr500 st
        ∧ (serverHandle up (postReq u)).1.statusCode = 500) := by
  rw [exportsHandler_post hu, serverHandle_post hu]
  unfold handlerPipeline serverPipeline
  refine ⟨?_, ?_, ?_⟩
  · intro hf
    rw [hf]
    dsimp only
    constructor
    · cases up.gemini (promptFor (normalizeContent text)) <;> rfl
    · cases up.gemini (promptFor text) <;> rfl
  · intro hf hg1 hg2
    rw [hf]
    dsimp only
    rw [hg1, hg2]
    exact ⟨rfl, rfl, rfl, rfl⟩
  · intro st data hf
    rw [hf]
    exact ⟨rfl, rfl⟩

/-- Witness for the amended C1: with a constant summarization oracle both
variants answer 200. -/
theorem claim_C1_witness :
    (exportsHandler (some "k".data) upConst
        (postEvent "http://example.com/page".data)).1.statusCode = 200
    ∧ (serverHandle upConst (postReq "http://example.com/page".data)).1.statusCode
      = 200 := by
  have h := (claim_C1_amended upConst "k".data "http://example.com/page".data
    "<b>hi</b>  there".data "A page about hi.".data (by decide)).2.1 rfl rfl rfl
  exact ⟨h.1, h.2.1⟩

/-- Claim C6: `makeRequest` resolves exactly when the received status is in
200–299; every non-2xx response rejects with an `error.response`-shaped
value carrying the response's status, body and headers; every network-level
failure rejects with an `error.request`-shaped value carrying the error
message — so the two failure kinds are distinguishable by shape. -/
theorem claim_C6_makeRequest_classification
    (parseJson : List Char → Option Json) (net : NetOutcome) :
    ((∃ d st hs, makeRequest parseJson net = .resolved d st hs)
      ↔ ∃ r, net = .response r ∧ 200 ≤ r.statusCode ∧ r.statusCode < 300)
    ∧ (∀ r, net = .response r → ¬(200 ≤ r.statusCode ∧ r.statusCode < 300) →
        makeRequest parseJson net
          = .rejectedResponse r.statusCode r.body r.headers)
    ∧ (∀ msg, net = .connError msg →
        makeRequest parseJson net = .rejectedRequest msg) := by
  refine ⟨⟨?_, ?_⟩, ?_, ?_⟩
  · rintro ⟨d, st, hs, h⟩
    cases net with
    | connError m => exact absurd h (by simp [makeRequest])
    | response r =>
      refine ⟨r, rfl, ?_⟩
      by_cases h2 : 200 ≤ r.statusCode ∧ r.statusCode < 300
      · exact h2
      · simp only [makeRequest] at h
        rw [if_neg h2] at h
        exact absurd h (by simp)
  · rintro ⟨r, rfl, h2⟩
    simp only [makeRequest]
    rw [if_pos h2]
    by_cases hct :
        includesSub "application/json".data (contentTypeOf r.headers) = true
    · rw [if_pos hct]
      cases hp : parseJson r.body with
      | none => exact ⟨_, _, _, rfl⟩
      | some j => exact ⟨_, _, _, rfl⟩
    · rw [if_neg hct]
      exact ⟨_, _, _, rfl⟩
  · rintro r rfl h2
    simp only [makeRequest]
    rw [if_neg h2]
  · rintro msg rfl
    rfl

/-- Witness for C6: a 404 response rejects with the response shape, a
connection error rejects with the request shape. -/
theorem claim_C6_witness :
    makeRequest noParse (.response resp404)
      = .rejectedResponse 404 "not found".data []
    ∧ makeRequest noParse (.connError "getaddrinfo ENOTFOUND".data)
      = .rejectedRequest "getaddrinfo ENOTFOUND".data := by
  refine ⟨?_, ?_⟩
  · exact (claim_C6_makeRequest_classification noParse
      (.response resp404)).2.1 resp404 rfl (by decide)
  · exact (claim_C6_makeRequest_classification noParse
      (.connError "getaddrinfo ENOTFOUND".data)).2.2 _ rfl

/-- Claim C10: a 2xx response whose content-type includes
`application/json` but whose body fails to parse still resolves, with the
raw body string — the parse failure is swallowed — and a rejection can only
come from a non-2xx status or a network-level error, never from the body
parse. -/
theorem claim_C10_json_parse_failure_swallowed
    (parseJson : List Char → Option Json) (r : UpstreamHttpResponse)
    (h2xx : 200 ≤ r.statusCode ∧ r.statusCode < 300)
    (hct : includesSub "application/json".data (contentTypeOf r.headers) = true)
    (hp : parseJson r.body = none) :
    makeRequest parseJson (.response r)
      = .resolved (.raw r.body) r.statusCode r.headers
    ∧ (∀ (net : NetOutcome) (st : Nat) (d : List Char)
          (hs : List (List Char × List Char)),
        makeRequest parseJson net = .rejectedResponse st d hs →
        ∃ r', net = .response r'
          ∧ ¬(200 ≤ r'.statusCode ∧ r'.statusCode < 300))
    ∧ (∀ (net : NetOutcome) (m : List Char),
        makeRequest parseJson net = .rejectedRequest m →
        net = .connError m) := by
  refine ⟨?_, ?_, ?_⟩
  · simp only [makeRequest]
    rw [if_pos h2xx, if_pos hct, hp]
  · intro net st d hs h
    cases net with
    | connError m => exact absurd h (by simp [makeRequest])
    | response r' =>
      refine ⟨r', rfl, ?_⟩
      intro h2
      simp only [makeRequest] at h
      rw [if_pos h2] at h
      by_cases hct' :
          includesSub "application/json".data (contentTypeOf r'.headers) = true
      · rw [if_pos hct'] at h
        cases hp' : parseJson r'.body with
        | none => rw [hp'] at h; exact absurd h (by simp)
        | some j => rw [hp'] at h; exact absurd h (by simp)
      · rw [if_neg hct'] at h
        exact absurd h (by simp)
  · intro net m h
    cases net with
    | connError m' =>
      have : m' = m := by
        simp only [makeRequest] at h
        exact (MakeRequestResult.rejectedRequest.injEq _ _).mp h
      rw [this]
    | response r' =>
      by_cases h2 : 200 ≤ r'.statusCode ∧ r'.statusCode < 300
      · simp only [makeRequest] at h
        rw [if_pos h2] at h
        by_cases hct' :
            includesSub "application/json".data (contentTypeOf r'.headers) = true
        · rw [if_pos hct'] at h
          cases hp' : parseJson r'.body with
          | none => rw [hp'] at h; exact absurd h (by simp)
          | some j => rw [hp'] at h; exact absurd h (by simp)
        · rw [if_neg hct'] at h
          exact absurd h (by simp)
      · simp only [makeRequest] at h
        rw [if_neg h2] at h
        exact absurd h (by simp)

/-- Witness for C10: a concrete 200 `application/json` response with an
unparsable body resolves with the raw body. -/
theorem claim_C10_witness :
    makeRequest noParse (.response respBadJson)
      = .resolved (.raw "not json".data) 200 respBadJson.headers :=
  (claim_C10_json_parse_failure_swallowed noParse respBadJson
    (by decide) (by decide) rfl).1
